import Mathlib

/-!
# Verification of gntools: size-targeting image compression and image-to-document composition

Shallow embedding of `src/features/image_compressor.py` (`compress_image`) and
`src/features/img_to_pdf.py` (`images_to_pdf`).

PIL codec behavior is not arithmetic the program controls, so it is abstracted into
oracle functions carried by an environment record: the byte size an encode produces
for a given image/format/quality, the on-disk size of a written file, decode
success/failure for a path, and the color mode of a decoded file.  All control flow,
arithmetic and string handling of the Python source is translated directly.

Python float literals are modeled by exact rationals: `0.05 = 1/20`, `0.2 = 1/5`,
and `int(width * 0.9)` by `width * 9 / 10` in `Nat` (for image dimensions the IEEE
double `0.9` rounds to the same floor, since `repr(0.9)` exceeds `9/10` by less than
half an ulp at these magnitudes).  `int(50 * (i + 1) / n)` is modeled by Nat division
`50 * (i + 1) / n`: the exact quotient is a rational with denominator `n`, whose
distance from any integer it does not equal is at least `1/n`, far above the float
rounding error, so truncation agrees with the rational floor.

The Python loops are written as fuel-indexed structural recursions so that every
definition is executable; lemmas below show the fuel used by the translation is
never exhausted (the loop stabilizes well before the fuel runs out), so the fuel
recursion coincides with the source's `while` loops.
-/

namespace GnTools

/-- In-memory PIL image values.  Constructors mirror exactly the PIL operations the
source performs: `Image.open` (kept abstract by its path), `Image.new` with an
opaque white RGBA fill (image_compressor.py line 40), `Image.alpha_composite`
(line 42), `Image.convert` (lines 43, 45; img_to_pdf.py lines 349, 351), and
`Image.resize` (line 82). -/
inductive Img where
  | file (path : String)
  | newWhite (w h : Nat)
  | alphaComposite (bg fg : Img)
  | convert (i : Img) (m : String)
  | resize (i : Img) (w h : Nat)
  deriving DecidableEq

/-- Environment of one `compress_image` call: the decoded source's PIL attributes
(`mode`, `format`, `size`) and the codec oracles.  `encSize i fmt q` is
`buffer.tell()` after `i.save(buffer, format=fmt, quality=q, optimize=True)`;
`diskSize i fmt q` is `os.path.getsize(output_path)` after saving `i` the same way
to disk (the two may differ, which is exactly why the source re-reads the disk). -/
structure PILEnv where
  srcMode : String
  srcFormat : Option String
  srcWidth : Nat
  srcHeight : Nat
  encSize : Img → String → Nat → Nat
  diskSize : Img → String → Nat → Nat

/-- PIL `.mode` of an image value: `Image.new('RGBA', ...)` and
`Image.alpha_composite` yield RGBA images, `convert(m)` yields mode `m`,
`resize` preserves the mode, and an opened file has the source's mode. -/
def Img.mode (env : PILEnv) : Img → String
  | .file _ => env.srcMode
  | .newWhite _ _ => "RGBA"
  | .alphaComposite _ _ => "RGBA"
  | .convert i _ => i.mode env
  | .resize i _ _ => i.mode env

/-- PIL `.size` (width, height) of an image value: `resize (w, h)` has size
`(w, h)`, `convert` preserves size, `alpha_composite` has the background's size
(PIL requires both operands to share it), and an opened file has the source's. -/
def Img.size (env : PILEnv) : Img → Nat × Nat
  | .file _ => (env.srcWidth, env.srcHeight)
  | .newWhite w h => (w, h)
  | .alphaComposite bg _ => bg.size env
  | .convert i _ => i.size env
  | .resize _ w h => (w, h)

/-- image_compressor.py line 27: `original_image.format if original_image.format
else 'JPEG'`. -/
def srcFmt (env : PILEnv) : String :=
  env.srcFormat.getD "JPEG"

/-- Line 65: `abs(output_size - target_size_bytes) < target_size_bytes * 0.05`,
with `0.05` as the exact rational `1/20` (cleared of denominators). -/
def within5 (size target : Nat) : Bool :=
  decide (20 * ((size : Int) - (target : Int)).natAbs < target)

/-- Line 97: `abs(final_size - target_size_bytes) < target_size_bytes * 0.2`,
with `0.2` as the exact rational `1/5` (cleared of denominators). -/
def within20 (size target : Nat) : Bool :=
  decide (5 * ((size : Int) - (target : Int)).natAbs < target)

/-- Lines 37-45: only a PNG-format RGBA image is alpha-composited onto an opaque
white background (of the source's size) and then converted to RGB; any other
non-RGB mode is converted straight to RGB; an RGB image is left untouched. -/
def normalizeImage (env : PILEnv) (img : Img) (fmt : String) : Img :=
  if fmt = "PNG" ∧ Img.mode env img = "RGBA" then
    Img.convert (Img.alphaComposite (Img.newWhite (Img.size env img).1 (Img.size env img).2) img) "RGB"
  else if Img.mode env img ≠ "RGB" then
    Img.convert img "RGB"
  else
    img

/-- Lines 58-71, the binary search over quality, as a fuel-indexed recursion.
`cur` carries the current `(quality, output_size)` pair (their values from before
the loop, updated by every iteration); the loop runs while `min_quality ≤
max_quality`, encodes at the midpoint quality, breaks when within 5% of the
target, otherwise narrows `max` down (size too big) or `min` up (size fits). -/
def qsearch (env : PILEnv) (img : Img) (fmt : String) (target : Nat) :
    Nat → Nat → Nat → Nat × Nat → Nat × Nat
  | 0, _, _, cur => cur
  | fuel + 1, minQ, maxQ, cur =>
    if minQ ≤ maxQ then
      let q := (minQ + maxQ) / 2
      let s := env.encSize img fmt q
      if within5 s target then (q, s)
      else if target < s then qsearch env img fmt target fuel minQ (q - 1) (q, s)
      else qsearch env img fmt target fuel (q + 1) maxQ (q, s)
    else cur

/-- Number of loop iterations the quality search executes (same recursion shape
as `qsearch`, counting entries into the loop body). -/
def qsearchIters (env : PILEnv) (img : Img) (fmt : String) (target : Nat) :
    Nat → Nat → Nat → Nat
  | 0, _, _ => 0
  | fuel + 1, minQ, maxQ =>
    if minQ ≤ maxQ then
      let q := (minQ + maxQ) / 2
      let s := env.encSize img fmt q
      if within5 s target then 1
      else if target < s then 1 + qsearchIters env img fmt target fuel minQ (q - 1)
      else 1 + qsearchIters env img fmt target fuel (q + 1) maxQ
    else 0

/-- Lines 74-90, the dimension-reduction fallback, as a fuel-indexed recursion.
While the buffer is still over target and both dimensions exceed 50, shrink both
by 10% (`int(w * 0.9)` = `w * 9 / 10`), re-encode at the search's final quality,
and adopt the resized image (breaking out) exactly when its encoding fits the
target.  Returns the final `original_image` and `output_size`.  The unused local
`ratio` of line 76 has no effect and is omitted. -/
def shrinkLoop (env : PILEnv) (orig : Img) (fmt : String) (target q : Nat) :
    Nat → Nat → Nat → Nat → Img × Nat
  | 0, _, _, osize => (orig, osize)
  | fuel + 1, w, h, osize =>
    if target < osize ∧ 50 < w ∧ 50 < h then
      let w2 := w * 9 / 10
      let h2 := h * 9 / 10
      let s := env.encSize (Img.resize orig w2 h2) fmt q
      if s ≤ target then (Img.resize orig w2 h2, s)
      else shrinkLoop env orig fmt target q fuel w2 h2 s
    else (orig, osize)

/-- The dimension pairs the fallback loop of lines 74-90 tries, in order: from
`(w, h)`, repeatedly shrink both dimensions by 10% while both still exceed 50.
This trajectory is a pure function of the starting dimensions — the loop's
`output_size > target` guard only decides how far along it the loop walks (it
stops early exactly when an attempt fits and is adopted, or never starts when
the search already ended at or under the target). -/
def shrinkDims : Nat → Nat → Nat → List (Nat × Nat)
  | 0, _, _ => []
  | fuel + 1, w, h =>
    if 50 < w ∧ 50 < h then
      (w * 9 / 10, h * 9 / 10) :: shrinkDims fuel (w * 9 / 10) (h * 9 / 10)
    else []

/-- Observable outcome of one `compress_image` call: the image written to
`output_path` and the quality it was saved at (`dest`, always populated — the
function writes on every return path), plus the returned boolean and which
return path was taken. -/
structure CompressResult where
  written : Img
  quality : Nat
  fastPath : Bool
  dest : Option (Img × Nat)
  success : Bool
  deriving DecidableEq

/-- The normalized source image (line 24 `Image.open` followed by lines 37-45). -/
def srcImg (env : PILEnv) (p : String) : Img :=
  normalizeImage env (Img.file p) (srcFmt env)

/-- Lines 48-50: size of the initial encode at quality 95. -/
def initialSize (env : PILEnv) (p : String) : Nat :=
  env.encSize (srcImg env p) (srcFmt env) 95

/-- The quality search of lines 58-71 as called by `compress_image`: bounds start
at `[5, 95]` (lines 34-35), the pre-loop state is `quality = 95` with the initial
encode's size (lines 30, 50), and 91 units of fuel cover the widest possible
interval `[5, 95]`. -/
def searchRes (env : PILEnv) (p : String) (t : Nat) : Nat × Nat :=
  qsearch env (srcImg env p) (srcFmt env) t 91 5 95 (95, initialSize env p)

/-- The dimension-reduction loop of lines 74-90 as called by `compress_image`:
starts from the full dimensions and the search's final size, at the search's
final quality; the width is (more than) enough fuel since the width strictly
drops every iteration. -/
def shrinkRes (env : PILEnv) (p : String) (t : Nat) : Img × Nat :=
  shrinkLoop env (srcImg env p) (srcFmt env) t (searchRes env p t).1
    (Img.size env (srcImg env p)).1
    (Img.size env (srcImg env p)).1 (Img.size env (srcImg env p)).2
    (searchRes env p t).2

/-- Function `compress_image(input_path, output_path, target_size_bytes)`, lines 11-97.
Fast path (lines 53-55): if the quality-95 encode already fits the target, write
it and return `True` with no further checks.  Otherwise run the quality search,
then the dimension-reduction fallback, write the surviving image at the search's
final quality (line 93), re-read the file size from disk (line 96) and return
whether it is within 20% of the target (line 97). -/
def compress_image (env : PILEnv) (p : String) (t : Nat) : CompressResult :=
  if initialSize env p ≤ t then
    { written := srcImg env p, quality := 95, fastPath := true,
      dest := some (srcImg env p, 95), success := true }
  else
    { written := (shrinkRes env p t).1, quality := (searchRes env p t).1,
      fastPath := false,
      dest := some ((shrinkRes env p t).1, (searchRes env p t).1),
      success := within20 (env.diskSize (shrinkRes env p t).1 (srcFmt env) (searchRes env p t).1) t }

/-! ### img_to_pdf.py: `images_to_pdf` -/

/-- Python exception values as the caller can observe them: the class and the
message (`str(e)`).  In Python 3 `IOError` is an alias of `OSError`, so that
taxon is represented by `osError`; `exception` is the bare `Exception` class. -/
inductive PyErr where
  | valueError (msg : String)
  | osError (msg : String)
  | exception (msg : String)
  deriving DecidableEq

/-- Python `str(e)`: the message carried by the exception. -/
def PyErr.msg : PyErr → String
  | .valueError m => m
  | .osError m => m
  | .exception m => m

/-- Class test: is this exception an `OSError` (= `IOError`)? -/
def PyErr.isOsError : PyErr → Bool
  | .osError _ => true
  | _ => false

/-- Did the call raise (as opposed to returning)? -/
def raised (r : Except PyErr Bool) : Bool :=
  match r with
  | .error _ => true
  | .ok _ => false

instance : DecidableEq (Except PyErr Bool)
  | .error a, .error b =>
    if h : a = b then .isTrue (by rw [h]) else .isFalse (by intro hc; injection hc; exact h (by assumption))
  | .error _, .ok _ => .isFalse (by intro hc; injection hc)
  | .ok _, .error _ => .isFalse (by intro hc; injection hc)
  | .ok a, .ok b =>
    if h : a = b then .isTrue (by rw [h]) else .isFalse (by intro hc; injection hc; exact h (by assumption))

/-- Environment of one `images_to_pdf` call: whether `Image.open` succeeds for a
path and with what exception message if not, the mode of a decoded file, whether
the PDF encode (`first_image.save(..., format="PDF")`) of a page list succeeds,
and whether `shutil.move` succeeds.  `shutil.move` is modeled as atomic: it
either fully installs the file at the destination or fails leaving the
destination untouched; `os.remove` of the temporary file is modeled as
succeeding. -/
structure PdfEnv where
  openOk : String → Bool
  openMsg : String → String
  modeOf : String → String
  saveOk : List Img → Bool
  saveMsg : String
  moveOk : Bool
  moveMsg : String

/-- Characters of the path component after the last slash: walk the characters,
collecting the current component (reversed) and resetting at every slash. -/
def basenameAux : List Char → List Char → List Char
  | [], acc => acc.reverse
  | c :: cs, acc => if c = '/' then basenameAux cs [] else basenameAux cs (c :: acc)

/-- Python `os.path.basename` for POSIX paths: the component after the last slash. -/
def basename (p : String) : String :=
  String.mk (basenameAux p.data [])

/-- img_to_pdf.py lines 347-351: open a path and convert to RGB when the mode is
not already RGB (the source's `RGBA` branch and its `elif` branch perform the
identical `convert("RGB")` call, so the net effect depends only on whether the
mode equals RGB). -/
def decodeOne (env : PdfEnv) (p : String) : Img :=
  if env.modeOf p ≠ "RGB" then Img.convert (Img.file p) "RGB" else Img.file p

/-- Lines 343-360, the decode loop: for each path in order, open and convert it
(raising `ValueError` naming the file's basename on failure) and report progress
`int(50 * (i + 1) / n)` after each success.  Returns the decoded images (or the
first error) together with the list of progress values reported before
returning/raising.  `n` is `len(image_paths)` and `i` the running index. -/
def decodeAll (env : PdfEnv) (n : Nat) : List String → Nat → Except PyErr (List Img) × List Nat
  | [], _ => (.ok [], [])
  | p :: rest, i =>
    if env.openOk p then
      ((decodeAll env n rest (i + 1)).1.map (fun l => decodeOne env p :: l),
        50 * (i + 1) / n :: (decodeAll env n rest (i + 1)).2)
    else
      (.error (.valueError ("Failed to process image " ++ basename p ++ ": " ++ env.openMsg p)), [])

/-- The file-system footprint of one `images_to_pdf` call: whether its temporary
file still exists when the call returns, and what the destination path holds (as
the page list of the document installed there, or the pre-call contents). -/
structure FS where
  tempExists : Bool
  dest : Option (List Img)
  deriving DecidableEq

/-- Function `images_to_pdf(image_paths, output_path, progress_callback)`, lines 326-410.
Raises `ValueError` on an empty input, decodes every image in order (progress
scaled into 0-50), creates a temporary file, saves all pages into it (first
image as base page, the rest appended in order), reports 90, moves the temporary
file onto the destination, reports 100 and returns `True`.  The enclosing
`except` removes the temporary file if it was created and re-raises everything
as a bare `Exception` wrapping the original message (lines 401-410).  The result
is the raised-or-returned value, the final file-system state (given `dest0`, the
destination's pre-call contents), and the progress values reported. -/
def images_to_pdf (env : PdfEnv) (image_paths : List String) (dest0 : Option (List Img)) :
    Except PyErr Bool × FS × List Nat :=
  if image_paths.isEmpty then
    (.error (.exception ("Failed to create PDF: " ++ "No images provided")), ⟨false, dest0⟩, [])
  else
    match (decodeAll env image_paths.length image_paths 0).1 with
    | .error e =>
        (.error (.exception ("Failed to create PDF: " ++ e.msg)), ⟨false, dest0⟩,
          (decodeAll env image_paths.length image_paths 0).2)
    | .ok images =>
        if images.isEmpty then
          (.error (.exception ("Failed to create PDF: " ++ "No valid images to convert")),
            ⟨false, dest0⟩, (decodeAll env image_paths.length image_paths 0).2)
        else if env.saveOk images then
          if env.moveOk then
            (.ok true, ⟨false, some images⟩,
              (decodeAll env image_paths.length image_paths 0).2 ++ [90, 100])
          else
            (.error (.exception ("Failed to create PDF: " ++ env.moveMsg)), ⟨false, dest0⟩,
              (decodeAll env image_paths.length image_paths 0).2 ++ [90])
        else
          (.error (.exception ("Failed to create PDF: " ++ env.saveMsg)), ⟨false, dest0⟩,
            (decodeAll env image_paths.length image_paths 0).2)

/-! ### Concrete environments used by counterexamples and witnesses -/

/-- Codec oracle: every encoding is one megabyte except resizes at width 45 or
below, which encode to 0 bytes.  Drives the compressor into the dimension
fallback and makes it adopt a 45-pixel-wide resize. -/
def cenc : Img → String → Nat → Nat
  | .resize _ w _, _, _ => if w ≤ 45 then 0 else 1000000
  | _, _, _ => 1000000

/-- A 100 by 100 RGB JPEG whose encodings follow `cenc` and whose on-disk files
measure 0 bytes. -/
def cenv1 : PILEnv :=
  { srcMode := "RGB", srcFormat := some "JPEG", srcWidth := 100, srcHeight := 100,
    encSize := cenc, diskSize := fun _ _ _ => 0 }

/-- A 100 by 100 RGB JPEG all of whose encodings measure 10 bytes, in the buffer
and on disk. -/
def cenv2 : PILEnv :=
  { srcMode := "RGB", srcFormat := some "JPEG", srcWidth := 100, srcHeight := 100,
    encSize := fun _ _ _ => 10, diskSize := fun _ _ _ => 10 }

/-- A 10 by 10 RGBA image whose container format is WEBP (alpha channel, but not
a PNG); encodings measure 1 byte. -/
def cenv3 : PILEnv :=
  { srcMode := "RGBA", srcFormat := some "WEBP", srcWidth := 10, srcHeight := 10,
    encSize := fun _ _ _ => 1, diskSize := fun _ _ _ => 1 }

/-- An 8 by 6 RGBA PNG; encodings measure 1 byte. -/
def cenvP : PILEnv :=
  { srcMode := "RGBA", srcFormat := some "PNG", srcWidth := 8, srcHeight := 6,
    encSize := fun _ _ _ => 1, diskSize := fun _ _ _ => 1 }

/-- A 4 by 4 RGB JPEG all of whose encodings measure exactly 100 bytes. -/
def cenvC : PILEnv :=
  { srcMode := "RGB", srcFormat := some "JPEG", srcWidth := 4, srcHeight := 4,
    encSize := fun _ _ _ => 100, diskSize := fun _ _ _ => 100 }

/-- A 60 by 60 RGB JPEG all of whose encodings measure 1000 bytes: no resize
ever fits a target of 100. -/
def cenvNF : PILEnv :=
  { srcMode := "RGB", srcFormat := some "JPEG", srcWidth := 60, srcHeight := 60,
    encSize := fun _ _ _ => 1000, diskSize := fun _ _ _ => 1000 }

/-- A document-composer environment where every `Image.open` fails with message
`boom`. -/
def envE7 : PdfEnv :=
  { openOk := fun _ => false, openMsg := fun _ => "boom", modeOf := fun _ => "RGB",
    saveOk := fun _ => true, saveMsg := "save failed", moveOk := true, moveMsg := "move failed" }

/-- A document-composer environment where every step succeeds and every source
is already RGB. -/
def envOK : PdfEnv :=
  { openOk := fun _ => true, openMsg := fun _ => "", modeOf := fun _ => "RGB",
    saveOk := fun _ => true, saveMsg := "save failed", moveOk := true, moveMsg := "move failed" }

/-! ### Helper lemmas -/

/-- The integer comparison implementing the 5% in-memory tolerance agrees with
the specification's rational form. -/
theorem within5_iff (s t : Nat) :
    within5 s t = true ↔ |(s : ℚ) - t| < 5 / 100 * t := by
  unfold within5
  rw [decide_eq_true_eq]
  have habs : |(s : ℚ) - t| = (((s : Int) - t).natAbs : ℚ) := by
    rw [Nat.cast_natAbs]
    push_cast
    ring_nf
  rw [habs]
  constructor
  · intro h
    have h2 : ((20 * ((s : Int) - t).natAbs : Nat) : ℚ) < (t : ℚ) := by exact_mod_cast h
    push_cast at h2
    linarith
  · intro h
    have h2 : ((20 * ((s : Int) - t).natAbs : Nat) : ℚ) < (t : ℚ) := by push_cast; linarith
    exact_mod_cast h2

/-- The integer comparison implementing the 20% on-disk tolerance agrees with
the specification's rational form. -/
theorem within20_iff (s t : Nat) :
    within20 s t = true ↔ |(s : ℚ) - t| < 20 / 100 * t := by
  unfold within20
  rw [decide_eq_true_eq]
  have habs : |(s : ℚ) - t| = (((s : Int) - t).natAbs : ℚ) := by
    rw [Nat.cast_natAbs]
    push_cast
    ring_nf
  rw [habs]
  constructor
  · intro h
    have h2 : ((5 * ((s : Int) - t).natAbs : Nat) : ℚ) < (t : ℚ) := by exact_mod_cast h
    push_cast at h2
    linarith
  · intro h
    have h2 : ((5 * ((s : Int) - t).natAbs : Nat) : ℚ) < (t : ℚ) := by push_cast; linarith
    exact_mod_cast h2

/-- Color normalization never changes the pixel dimensions: the normalized
source has the source file's width and height. -/
theorem size_srcImg (env : PILEnv) (p : String) :
    Img.size env (srcImg env p) = (env.srcWidth, env.srcHeight) := by
  unfold srcImg normalizeImage
  split
  · rfl
  · split
    · rfl
    · rfl

/-- The dimension-reduction loop returns either the image it started from, or a
resize that was adopted in a loop iteration; an adopted resize always fits the
target, and both of its dimensions are at least 45, because a shrink step starts
from dimensions strictly above 50 and multiplies them by 9/10. -/
theorem shrinkLoop_cases (env : PILEnv) (orig : Img) (fmt : String) (t q : Nat) :
    ∀ fuel w h s, (shrinkLoop env orig fmt t q fuel w h s).1 = orig
      ∨ ∃ w2 h2, (shrinkLoop env orig fmt t q fuel w h s).1 = Img.resize orig w2 h2
          ∧ 45 ≤ w2 ∧ 45 ≤ h2
          ∧ env.encSize (Img.resize orig w2 h2) fmt q ≤ t := by
  intro fuel
  induction fuel with
  | zero => intro w h s; left; rfl
  | succ f ih =>
    intro w h s
    simp only [shrinkLoop]
    split
    · rename_i hg
      split
      · rename_i hfit
        right
        exact ⟨w * 9 / 10, h * 9 / 10, rfl, by omega, by omega, hfit⟩
      · exact ih (w * 9 / 10) (h * 9 / 10) _
    · left; rfl

/-- Lemma `shrinkLoop_cases` at the arguments `compress_image` uses. -/
theorem shrinkRes_cases (env : PILEnv) (p : String) (t : Nat) :
    (shrinkRes env p t).1 = srcImg env p
    ∨ ∃ w2 h2, (shrinkRes env p t).1 = Img.resize (srcImg env p) w2 h2
        ∧ 45 ≤ w2 ∧ 45 ≤ h2
        ∧ env.encSize (Img.resize (srcImg env p) w2 h2) (srcFmt env) ((searchRes env p t).1) ≤ t := by
  unfold shrinkRes
  exact shrinkLoop_cases env (srcImg env p) (srcFmt env) t (searchRes env p t).1 _ _ _ _

/-- If every resize on the tried trajectory fails to fit the target (encodes to
more than `t` at quality `q`), the fallback loop adopts nothing and returns the
image it started from. -/
theorem shrinkLoop_nofit (env : PILEnv) (orig : Img) (fmt : String) (t q : Nat) :
    ∀ fuel w h osize,
      (∀ d ∈ shrinkDims fuel w h, ¬ env.encSize (Img.resize orig d.1 d.2) fmt q ≤ t) →
      (shrinkLoop env orig fmt t q fuel w h osize).1 = orig := by
  intro fuel
  induction fuel with
  | zero => intro w h osize _; rfl
  | succ f ih =>
    intro w h osize hnone
    simp only [shrinkLoop]
    split
    · rename_i hg
      have hdims : shrinkDims (f + 1) w h
          = (w * 9 / 10, h * 9 / 10) :: shrinkDims f (w * 9 / 10) (h * 9 / 10) := by
        simp only [shrinkDims]
        rw [if_pos ⟨hg.2.1, hg.2.2⟩]
      rw [hdims] at hnone
      split
      · rename_i hfit
        exact absurd hfit (hnone (w * 9 / 10, h * 9 / 10) (by simp))
      · exact ih (w * 9 / 10) (h * 9 / 10) _ (fun d hd => hnone d (by simp [hd]))
    · rfl

/-- The fallback loop returns either the image it started from, or a resize at
one of the dimension pairs on the tried trajectory whose encoding fits the
target. -/
theorem shrinkLoop_adopt (env : PILEnv) (orig : Img) (fmt : String) (t q : Nat) :
    ∀ fuel w h osize, (shrinkLoop env orig fmt t q fuel w h osize).1 = orig
      ∨ ∃ d ∈ shrinkDims fuel w h,
          (shrinkLoop env orig fmt t q fuel w h osize).1 = Img.resize orig d.1 d.2
          ∧ env.encSize (Img.resize orig d.1 d.2) fmt q ≤ t := by
  intro fuel
  induction fuel with
  | zero => intro w h osize; left; rfl
  | succ f ih =>
    intro w h osize
    simp only [shrinkLoop]
    split
    · rename_i hg
      have hdims : shrinkDims (f + 1) w h
          = (w * 9 / 10, h * 9 / 10) :: shrinkDims f (w * 9 / 10) (h * 9 / 10) := by
        simp only [shrinkDims]
        rw [if_pos ⟨hg.2.1, hg.2.2⟩]
      rw [hdims]
      split
      · rename_i hfit
        right
        exact ⟨(w * 9 / 10, h * 9 / 10), by simp, rfl, hfit⟩
      · rcases ih (w * 9 / 10) (h * 9 / 10) _ with hc | ⟨d, hd, he, hfit⟩
        · exact Or.inl hc
        · exact Or.inr ⟨d, by simp [hd], he, hfit⟩
    · left; rfl

/-- If the size the loop starts from is already at or under the target, the
loop body never runs and the image passes through untouched. -/
theorem shrinkLoop_notrun (env : PILEnv) (orig : Img) (fmt : String) (t q : Nat) :
    ∀ fuel w h osize, osize ≤ t → (shrinkLoop env orig fmt t q fuel w h osize).1 = orig := by
  intro fuel w h osize hs
  cases fuel with
  | zero => rfl
  | succ f =>
    simp only [shrinkLoop]
    have hng : ¬ (t < osize ∧ 50 < w ∧ 50 < h) := by
      intro hc
      omega
    rw [if_neg hng]

/-- Lemma `shrinkLoop_adopt` at the arguments `compress_image` uses. -/
theorem shrinkRes_adopt (env : PILEnv) (p : String) (t : Nat) :
    (shrinkRes env p t).1 = srcImg env p
    ∨ ∃ d ∈ shrinkDims (Img.size env (srcImg env p)).1 (Img.size env (srcImg env p)).1
          (Img.size env (srcImg env p)).2,
        (shrinkRes env p t).1 = Img.resize (srcImg env p) d.1 d.2
        ∧ env.encSize (Img.resize (srcImg env p) d.1 d.2) (srcFmt env)
            ((searchRes env p t).1) ≤ t := by
  unfold shrinkRes
  exact shrinkLoop_adopt env (srcImg env p) (srcFmt env) t (searchRes env p t).1 _ _ _ _

/-- Iteration bound for the quality search: if the bound interval satisfies
`maxQ - minQ + 2 ≤ 2 ^ k` then at most `k` loop iterations run, whatever the
codec oracle reports, because each non-breaking iteration at least halves the
interval. -/
theorem qsearchIters_le (env : PILEnv) (img : Img) (fmt : String) (t : Nat) :
    ∀ fuel k minQ maxQ, 1 ≤ minQ → maxQ + 2 ≤ minQ + 2 ^ k →
      qsearchIters env img fmt t fuel minQ maxQ ≤ k := by
  intro fuel
  induction fuel with
  | zero => intro k minQ maxQ _ _; exact Nat.zero_le k
  | succ f ih =>
    intro k minQ maxQ hmin hk
    simp only [qsearchIters]
    split
    · rename_i hle
      obtain ⟨k2, rfl⟩ : ∃ k2, k = k2 + 1 := by
        cases k with
        | zero => simp only [pow_zero] at hk; omega
        | succ k2 => exact ⟨k2, rfl⟩
      have hpow : 2 ^ (k2 + 1) = 2 * 2 ^ k2 := by ring
      split
      · omega
      · split
        · have h2 := ih k2 minQ ((minQ + maxQ) / 2 - 1) hmin (by omega)
          omega
        · have h2 := ih k2 ((minQ + maxQ) / 2 + 1) maxQ (by omega) (by omega)
          omega
    · exact Nat.zero_le _

/-- Fuel irrelevance for the quality search: once the fuel covers the
logarithmic iteration bound, adding more fuel does not change the result — the
fuel-indexed recursion computes the same answer as the source's unbounded
`while` loop. -/
theorem qsearch_stable (env : PILEnv) (img : Img) (fmt : String) (t : Nat) :
    ∀ k fuel minQ maxQ cur, 1 ≤ minQ → maxQ + 2 ≤ minQ + 2 ^ k → k ≤ fuel →
      qsearch env img fmt t fuel minQ maxQ cur = qsearch env img fmt t k minQ maxQ cur := by
  intro k
  induction k with
  | zero =>
    intro fuel minQ maxQ cur _ hk _
    simp only [pow_zero] at hk
    cases fuel with
    | zero => rfl
    | succ f =>
      simp only [qsearch]
      rw [if_neg (by omega)]
  | succ k2 ih =>
    intro fuel minQ maxQ cur hmin hk hf
    obtain ⟨f, rfl⟩ : ∃ f, fuel = f + 1 := ⟨fuel - 1, by omega⟩
    have hpow : 2 ^ (k2 + 1) = 2 * 2 ^ k2 := by ring
    simp only [qsearch]
    by_cases hle : minQ ≤ maxQ
    · rw [if_pos hle, if_pos hle]
      by_cases hconv : within5 (env.encSize img fmt ((minQ + maxQ) / 2)) t = true
      · simp only [hconv, if_true]
      · simp only [hconv]
        by_cases hgt : t < env.encSize img fmt ((minQ + maxQ) / 2)
        · rw [if_pos hgt, if_pos hgt]
          exact ih f minQ ((minQ + maxQ) / 2 - 1) _ hmin (by omega) (by omega)
        · rw [if_neg hgt, if_neg hgt]
          exact ih f ((minQ + maxQ) / 2 + 1) maxQ _ (by omega) (by omega) (by omega)
    · rw [if_neg hle, if_neg hle]

/-- If the decode loop returns a page list, it is exactly the input paths
decoded in order. -/
theorem decodeAll_ok (env : PdfEnv) (n : Nat) :
    ∀ paths i images, (decodeAll env n paths i).1 = .ok images →
      images = paths.map (decodeOne env) := by
  intro paths
  induction paths with
  | nil =>
    intro i images h
    simp only [decodeAll] at h
    cases h
    rfl
  | cons p rest ih =>
    intro i images h
    simp only [decodeAll] at h
    by_cases ho : env.openOk p = true
    · rw [if_pos ho] at h
      dsimp only at h
      cases hr : (decodeAll env n rest (i + 1)).1 with
      | error e => rw [hr] at h; simp [Except.map] at h
      | ok l =>
        rw [hr] at h
        simp only [Except.map] at h
        cases h
        have h2 := ih (i + 1) l hr
        simp [h2]
    · rw [if_neg ho] at h
      simp at h

/-- If every path before `p` decodes and `p` does not, the decode loop raises
the `ValueError` naming `p`'s basename and the original open error. -/
theorem decodeAll_err (env : PdfEnv) (n : Nat) (p : String) (post : List String)
    (hp : env.openOk p = false) :
    ∀ pre i, (∀ q ∈ pre, env.openOk q = true) →
      (decodeAll env n (pre ++ p :: post) i).1
        = .error (.valueError ("Failed to process image " ++ basename p ++ ": " ++ env.openMsg p)) := by
  intro pre
  induction pre with
  | nil =>
    intro i _
    simp only [List.nil_append, decodeAll]
    rw [if_neg (by simp [hp])]
  | cons q pre ih =>
    intro i hall
    simp only [List.cons_append, decodeAll]
    rw [if_pos (hall q (by simp))]
    dsimp only
    simp only [List.append_eq]
    rw [ih (i + 1) (fun r hr => hall r (by simp [hr]))]
    rfl

/-- Every progress value the decode loop reports starting at index `i` lies
between `50 * (i + 1) / n` and `50 * (i + length) / n`. -/
theorem decodeAll_prog_mem (env : PdfEnv) (n : Nat) :
    ∀ paths i x, x ∈ (decodeAll env n paths i).2 →
      50 * (i + 1) / n ≤ x ∧ x ≤ 50 * (i + paths.length) / n := by
  intro paths
  induction paths with
  | nil => intro i x hx; simp [decodeAll] at hx
  | cons p rest ih =>
    intro i x hx
    simp only [decodeAll] at hx
    by_cases ho : env.openOk p = true
    · rw [if_pos ho] at hx
      dsimp only at hx
      rcases List.mem_cons.mp hx with rfl | hx2
      · refine ⟨le_refl _, Nat.div_le_div_right (by simp only [List.length_cons]; omega)⟩
      · have h2 := ih (i + 1) x hx2
        refine ⟨le_trans (Nat.div_le_div_right (by omega)) h2.1, ?_⟩
        have hrw : i + 1 + rest.length = i + (p :: rest).length := by
          simp only [List.length_cons]; omega
        rw [hrw] at h2
        exact h2.2
    · rw [if_neg ho] at hx
      simp at hx

/-- The progress values the decode loop reports are non-decreasing. -/
theorem decodeAll_prog_chain (env : PdfEnv) (n : Nat) :
    ∀ paths i, List.Chain' (· ≤ ·) (decodeAll env n paths i).2 := by
  intro paths
  induction paths with
  | nil => intro i; simp [decodeAll]
  | cons p rest ih =>
    intro i
    simp only [decodeAll]
    by_cases ho : env.openOk p = true
    · rw [if_pos ho]
      dsimp only
      refine List.chain'_cons'.mpr ⟨?_, ih (i + 1)⟩
      intro b hb
      have hmem : b ∈ (decodeAll env n rest (i + 1)).2 := List.mem_of_mem_head? hb
      have h2 := (decodeAll_prog_mem env n rest (i + 1) b hmem).1
      exact le_trans (Nat.div_le_div_right (by omega)) h2
    · rw [if_neg ho]
      simp

/-! ### Claims -/

/-- C1, counterexample.  On a 100 by 100 image whose resize at width 45 encodes
under the target while the on-disk file misses the 20% tolerance, the call
reports failure (the target is never met) yet the written image measures 45 by
45 — below the claimed 50 by 50 floor, because the loop guard `width > 50 and
height > 50` admits one further 10% shrink from 51 down to `int(51 * 0.9) = 45`. -/
theorem C1_cex :
    (compress_image cenv1 "in.jpg" 100).success = false
    ∧ Img.size cenv1 (compress_image cenv1 "in.jpg" 100).written = (45, 45)
    ∧ ¬ (50 ≤ 45) := by
  decide

/-- C1 (amended): a call whose target is unreachable (the final 20% tolerance
fails, so `False` is returned) still writes a definite file at the destination —
`dest` is populated on every return path, with no exceptional exit — and the
written image's dimensions are either the source's own dimensions (no resize was
adopted) or both at least 45 pixels: each shrink step starts from a dimension
strictly above 50 and multiplies it by 9/10, so the floor actually enforced is
45, not 50. -/
theorem C1_floor (env : PILEnv) (p : String) (t : Nat) :
    (compress_image env p t).dest
        = some ((compress_image env p t).written, (compress_image env p t).quality)
    ∧ ((compress_image env p t).success = false →
        Img.size env (compress_image env p t).written = (env.srcWidth, env.srcHeight)
        ∨ (45 ≤ (Img.size env (compress_image env p t).written).1
            ∧ 45 ≤ (Img.size env (compress_image env p t).written).2)) := by
  by_cases hf : initialSize env p ≤ t
  · rw [compress_image, if_pos hf]
    refine ⟨rfl, fun _ => ?_⟩
    left
    exact size_srcImg env p
  · rw [compress_image, if_neg hf]
    refine ⟨rfl, fun _ => ?_⟩
    dsimp only
    rcases shrinkRes_cases env p t with hc | ⟨w2, h2, he, h45w, h45h, _⟩
    · left
      rw [hc]
      exact size_srcImg env p
    · right
      rw [he]
      exact ⟨h45w, h45h⟩

/-- C1 witness: the amended statement applied to the concrete unreachable-target
run of `C1_cex`. -/
theorem C1_floor_witness :
    (compress_image cenv1 "in.jpg" 100).dest
        = some ((compress_image cenv1 "in.jpg" 100).written, (compress_image cenv1 "in.jpg" 100).quality)
    ∧ (Img.size cenv1 (compress_image cenv1 "in.jpg" 100).written = (cenv1.srcWidth, cenv1.srcHeight)
        ∨ (45 ≤ (Img.size cenv1 (compress_image cenv1 "in.jpg" 100).written).1
            ∧ 45 ≤ (Img.size cenv1 (compress_image cenv1 "in.jpg" 100).written).2)) :=
  ⟨(C1_floor cenv1 "in.jpg" 100).1, (C1_floor cenv1 "in.jpg" 100).2 (by decide)⟩

/-- C2, counterexample.  A fast-path call reaches its final write (line 54, no
decode or write error) and returns `True`, yet the size of the file on disk (10
bytes) is nowhere near the 1000000-byte target: the claimed iff fails, because
the fast path never re-reads the disk. -/
theorem C2_cex :
    (compress_image cenv2 "a.jpg" 1000000).fastPath = true
    ∧ (compress_image cenv2 "a.jpg" 1000000).success = true
    ∧ cenv2.diskSize (compress_image cenv2 "a.jpg" 1000000).written (srcFmt cenv2)
        (compress_image cenv2 "a.jpg" 1000000).quality = 10
    ∧ within20 10 1000000 = false
    ∧ ¬ (|(10 : ℚ) - 1000000| < 20 / 100 * 1000000) := by
  refine ⟨by decide, by decide, by decide, by decide, fun hq => ?_⟩
  have h2 := (within20_iff 10 1000000).mpr hq
  exact absurd h2 (by decide)

/-- C2 (amended): a call that reaches the final write *after the quality search*
(it did not take the fast path) returns `True` iff the file size re-read from
disk is within 20% of the target; a fast-path call (the initial quality-95
encode already fits the target) returns `True` with no disk-size verification. -/
theorem C2_tolerance (env : PILEnv) (p : String) (t : Nat) :
    ((compress_image env p t).fastPath = false →
      ((compress_image env p t).success = true ↔
        |((env.diskSize (compress_image env p t).written (srcFmt env)
            (compress_image env p t).quality : Nat) : ℚ) - t| < 20 / 100 * t))
    ∧ ((compress_image env p t).fastPath = true → (compress_image env p t).success = true) := by
  by_cases hf : initialSize env p ≤ t
  · rw [compress_image, if_pos hf]
    exact ⟨fun h => by simp at h, fun _ => rfl⟩
  · rw [compress_image, if_neg hf]
    refine ⟨fun _ => ?_, fun h => by simp at h⟩
    dsimp only
    exact within20_iff _ t

/-- C2 witness: the amended statement applied to the non-fast-path run of
`C1_cex`, where the disk reports 0 bytes against a 100-byte target. -/
theorem C2_tolerance_witness :
    (compress_image cenv1 "in.jpg" 100).success = true ↔
      |((cenv1.diskSize (compress_image cenv1 "in.jpg" 100).written (srcFmt cenv1)
          (compress_image cenv1 "in.jpg" 100).quality : Nat) : ℚ) - 100| < 20 / 100 * 100 :=
  (C2_tolerance cenv1 "in.jpg" 100).1 (by decide)

/-- C3, counterexample.  A WEBP-format RGBA source carries an alpha channel, yet
`compress_image` encodes it merely `convert`-ed to RGB — not alpha-composited
onto a white background — because the flatten branch requires the format to be
PNG, not just the mode to carry alpha. -/
theorem C3_cex :
    Img.mode cenv3 (Img.file "a.webp") = "RGBA"
    ∧ (compress_image cenv3 "a.webp" 5).written = Img.convert (Img.file "a.webp") "RGB"
    ∧ Img.convert (Img.file "a.webp") "RGB"
        ≠ Img.convert
            (Img.alphaComposite (Img.newWhite cenv3.srcWidth cenv3.srcHeight) (Img.file "a.webp"))
            "RGB" := by
  decide

/-- C3 (amended): the one-time pre-search normalization flattens onto an opaque
white background exactly the sources whose *format is PNG and* mode is RGBA;
every other non-RGB source (alpha-carrying or not) is converted directly to RGB,
and an RGB source passes through unchanged.  Every image the call encodes is
this normalized image or a resize of it, so the normalization indeed happens
once, before the quality search. -/
theorem C3_normalize (env : PILEnv) (p : String) (t : Nat) :
    (srcFmt env = "PNG" ∧ Img.mode env (Img.file p) = "RGBA" →
      normalizeImage env (Img.file p) (srcFmt env)
        = Img.convert
            (Img.alphaComposite (Img.newWhite env.srcWidth env.srcHeight) (Img.file p)) "RGB")
    ∧ (¬ (srcFmt env = "PNG" ∧ Img.mode env (Img.file p) = "RGBA") →
        Img.mode env (Img.file p) ≠ "RGB" →
        normalizeImage env (Img.file p) (srcFmt env) = Img.convert (Img.file p) "RGB")
    ∧ (¬ (srcFmt env = "PNG" ∧ Img.mode env (Img.file p) = "RGBA") →
        Img.mode env (Img.file p) = "RGB" →
        normalizeImage env (Img.file p) (srcFmt env) = Img.file p)
    ∧ ((compress_image env p t).written = srcImg env p
        ∨ ∃ w h, (compress_image env p t).written = Img.resize (srcImg env p) w h) := by
  refine ⟨?_, ?_, ?_, ?_⟩
  · intro hc
    unfold normalizeImage
    rw [if_pos hc]
    rfl
  · intro hnc hm
    unfold normalizeImage
    rw [if_neg hnc, if_pos hm]
  · intro hnc hm
    unfold normalizeImage
    rw [if_neg hnc, if_neg (by simp [hm])]
  · by_cases hf : initialSize env p ≤ t
    · rw [compress_image, if_pos hf]
      exact Or.inl rfl
    · rw [compress_image, if_neg hf]
      dsimp only
      rcases shrinkRes_cases env p t with hc | ⟨w2, h2, he, _, _, _⟩
      · exact Or.inl hc
      · exact Or.inr ⟨w2, h2, he⟩

/-- C3 witness: the flatten branch fires on a concrete RGBA PNG. -/
theorem C3_normalize_witness :
    normalizeImage cenvP (Img.file "b.png") (srcFmt cenvP)
      = Img.convert
          (Img.alphaComposite (Img.newWhite cenvP.srcWidth cenvP.srcHeight) (Img.file "b.png"))
          "RGB" :=
  (C3_normalize cenvP "b.png" 0).1 (by decide)

/-- C4 (confirmed): the quality search encodes at `quality = floor((minQuality +
maxQuality) / 2)`; it stops and accepts that quality when `|size - target| <
0.05 * target` (the integer test `within5` agrees with the rational form);
otherwise it sets `maxQuality = quality - 1` when `size > target` and
`minQuality = quality + 1` when `size ≤ target`, and it loops exactly while
`minQuality ≤ maxQuality` (returning the state of the last iteration once the
bounds cross).  `compress_image` itself enters the search with bounds `[5, 95]`
and the pre-loop state `(95, initialSize)`. -/
theorem C4_search (env : PILEnv) (img : Img) (fmt : String) (t : Nat) (p : String)
    (fuel minQ maxQ : Nat) (cur : Nat × Nat) :
    (∀ s2 t2 : Nat, within5 s2 t2 = true ↔ |(s2 : ℚ) - t2| < 5 / 100 * t2)
    ∧ (maxQ < minQ → qsearch env img fmt t fuel minQ maxQ cur = cur)
    ∧ (minQ ≤ maxQ →
        (within5 (env.encSize img fmt ((minQ + maxQ) / 2)) t = true →
          qsearch env img fmt t (fuel + 1) minQ maxQ cur
            = ((minQ + maxQ) / 2, env.encSize img fmt ((minQ + maxQ) / 2)))
        ∧ (within5 (env.encSize img fmt ((minQ + maxQ) / 2)) t = false →
            t < env.encSize img fmt ((minQ + maxQ) / 2) →
            qsearch env img fmt t (fuel + 1) minQ maxQ cur
              = qsearch env img fmt t fuel minQ ((minQ + maxQ) / 2 - 1)
                  ((minQ + maxQ) / 2, env.encSize img fmt ((minQ + maxQ) / 2)))
        ∧ (within5 (env.encSize img fmt ((minQ + maxQ) / 2)) t = false →
            env.encSize img fmt ((minQ + maxQ) / 2) ≤ t →
            qsearch env img fmt t (fuel + 1) minQ maxQ cur
              = qsearch env img fmt t fuel ((minQ + maxQ) / 2 + 1) maxQ
                  ((minQ + maxQ) / 2, env.encSize img fmt ((minQ + maxQ) / 2))))
    ∧ ((compress_image env p t).fastPath = false →
        (compress_image env p t).quality = (searchRes env p t).1)
    ∧ searchRes env p t
        = qsearch env (srcImg env p) (srcFmt env) t 91 5 95 (95, initialSize env p) := by
  refine ⟨within5_iff, ?_, ?_, ?_, rfl⟩
  · intro h
    cases fuel with
    | zero => rfl
    | succ f =>
      simp only [qsearch]
      rw [if_neg (by omega)]
  · intro hle
    refine ⟨?_, ?_, ?_⟩
    · intro hconv
      simp only [qsearch]
      rw [if_pos hle]
      simp only [hconv, if_true]
    · intro hconv hgt
      simp only [qsearch]
      rw [if_pos hle]
      simp only [hconv, Bool.false_eq_true, if_false]
      rw [if_pos hgt]
    · intro hconv hgt
      simp only [qsearch]
      rw [if_pos hle]
      simp only [hconv, Bool.false_eq_true, if_false]
      rw [if_neg (by omega)]
  · by_cases hf : initialSize env p ≤ t
    · rw [compress_image, if_pos hf]
      intro h
      simp at h
    · rw [compress_image, if_neg hf]
      intro _
      rfl

/-- C4 witness: one concrete converging loop step — at bounds `[5, 95]` the
midpoint quality is 50, the 100-byte encode is within 5% of the 100-byte target,
and the search returns `(50, 100)`. -/
theorem C4_search_witness :
    (5 : Nat) ≤ 95
    ∧ qsearch cenvC (Img.file "x") "JPEG" 100 (3 + 1) 5 95 (95, 7)
        = ((5 + 95) / 2, cenvC.encSize (Img.file "x") "JPEG" ((5 + 95) / 2)) :=
  ⟨by decide,
    ((C4_search cenvC (Img.file "x") "JPEG" 100 "x" 3 5 95 (95, 7)).2.2.1 (by decide)).1 (by decide)⟩

/-- C5 (confirmed): from the initial bounds `[5, 95]` the quality search always
terminates — its result is already stable at 7 units of fuel, so the 91 units
`compress_image` supplies are never exhausted and the fuel recursion equals the
source's `while` loop — and it executes at most `7 = ceil(log2(91))` iterations,
whatever the codec oracle and target, because the bound interval shrinks at
least by half on every iteration that does not break. -/
theorem C5_bound (env : PILEnv) (img : Img) (fmt : String) (t : Nat) (cur : Nat × Nat) :
    qsearchIters env img fmt t 91 5 95 ≤ 7
    ∧ ∀ fuel, 7 ≤ fuel →
        qsearch env img fmt t fuel 5 95 cur = qsearch env img fmt t 7 5 95 cur := by
  constructor
  · exact qsearchIters_le env img fmt t 91 7 5 95 (by norm_num) (by norm_num)
  · intro fuel hf
    exact qsearch_stable env img fmt t 7 fuel 5 95 cur (by norm_num) (by norm_num) hf

/-- C5 witness: the bound and the fuel stability at a concrete environment and
the fuel `compress_image` actually uses. -/
theorem C5_bound_witness :
    qsearchIters cenvC (Img.file "x") "JPEG" 100 91 5 95 ≤ 7
    ∧ qsearch cenvC (Img.file "x") "JPEG" 100 91 5 95 (95, 7)
        = qsearch cenvC (Img.file "x") "JPEG" 100 7 5 95 (95, 7) :=
  ⟨(C5_bound cenvC (Img.file "x") "JPEG" 100 (95, 7)).1,
    (C5_bound cenvC (Img.file "x") "JPEG" 100 (95, 7)).2 91 (by norm_num)⟩

/-- C10 (confirmed): a resized candidate is adopted only when its encoding fits
the target — the written image is the normalized source itself, or a resize at
one of the dimension pairs the fallback loop actually tries (`shrinkDims`, the
repeated 10% shrinks while both dimensions exceed 50) whose encoding at the
final search quality is at most the target.  And when no resized encoding the
loop produces ever fits, the written file is the full-dimension normalized
source at the quality the search ended with — every smaller resize attempt is
discarded: this holds both when every tried resize on the trajectory misses the
target (second conjunct; in such a run the loop walks the whole trajectory, so
the tried attempts are exactly `shrinkDims`) and when the loop produces no
attempt at all because the search already ended at or under the target (third
conjunct). -/
theorem C10_adopt (env : PILEnv) (p : String) (t : Nat) :
    ((compress_image env p t).written = srcImg env p
      ∨ ∃ d ∈ shrinkDims (Img.size env (srcImg env p)).1 (Img.size env (srcImg env p)).1
            (Img.size env (srcImg env p)).2,
          (compress_image env p t).written = Img.resize (srcImg env p) d.1 d.2
          ∧ env.encSize (compress_image env p t).written (srcFmt env)
              (compress_image env p t).quality ≤ t)
    ∧ ((compress_image env p t).fastPath = false →
        (∀ d ∈ shrinkDims (Img.size env (srcImg env p)).1 (Img.size env (srcImg env p)).1
              (Img.size env (srcImg env p)).2,
            ¬ env.encSize (Img.resize (srcImg env p) d.1 d.2) (srcFmt env)
                ((searchRes env p t).1) ≤ t) →
        (compress_image env p t).written = srcImg env p
        ∧ (compress_image env p t).quality = (searchRes env p t).1)
    ∧ ((compress_image env p t).fastPath = false → (searchRes env p t).2 ≤ t →
        (compress_image env p t).written = srcImg env p
        ∧ (compress_image env p t).quality = (searchRes env p t).1) := by
  by_cases hf : initialSize env p ≤ t
  · rw [compress_image, if_pos hf]
    exact ⟨Or.inl rfl, fun h _ => by simp at h, fun h _ => by simp at h⟩
  · rw [compress_image, if_neg hf]
    refine ⟨?_, ?_, ?_⟩
    · dsimp only
      rcases shrinkRes_adopt env p t with hc | ⟨d, hd, he, hfit⟩
      · exact Or.inl hc
      · refine Or.inr ⟨d, hd, he, ?_⟩
        rw [he]
        exact hfit
    · intro _ hnone
      dsimp only
      refine ⟨?_, rfl⟩
      unfold shrinkRes
      exact shrinkLoop_nofit env (srcImg env p) (srcFmt env) t (searchRes env p t).1 _ _ _ _ hnone
    · intro _ hs
      dsimp only
      refine ⟨?_, rfl⟩
      unfold shrinkRes
      exact shrinkLoop_notrun env (srcImg env p) (srcFmt env) t (searchRes env p t).1 _ _ _ _ hs

/-- C10 witness: with a codec where every encoding measures 1000 bytes against a
100-byte target, every resize on the tried trajectory (from 60 by 60: 54 by 54,
then 48 by 48) misses, and the full-dimension source is written at the search's
final quality. -/
theorem C10_adopt_witness :
    (compress_image cenvNF "c.jpg" 100).written = srcImg cenvNF "c.jpg"
    ∧ (compress_image cenvNF "c.jpg" 100).quality = (searchRes cenvNF "c.jpg" 100).1 :=
  (C10_adopt cenvNF "c.jpg" 100).2.1 (by decide) (by decide)

/-- C6 (confirmed): whenever `images_to_pdf` raises, the final state has no
temporary file and the destination holds exactly its pre-call contents; and the
destination changes only on a run that returns `True`, with the page encode
(and the move) having succeeded — the move happens only after the encode fully
succeeds.  (`os.remove` of the temporary file and the atomicity of
`shutil.move` are part of the file-system model.) -/
theorem C6_cleanup (env : PdfEnv) (paths : List String) (dest0 : Option (List Img)) :
    (raised (images_to_pdf env paths dest0).1 = true →
      (images_to_pdf env paths dest0).2.1.tempExists = false
      ∧ (images_to_pdf env paths dest0).2.1.dest = dest0)
    ∧ ((images_to_pdf env paths dest0).2.1.dest ≠ dest0 →
        (images_to_pdf env paths dest0).1 = .ok true
        ∧ env.saveOk (paths.map (decodeOne env)) = true
        ∧ env.moveOk = true) := by
  unfold images_to_pdf
  split
  · exact ⟨fun _ => ⟨rfl, rfl⟩, fun h => absurd rfl h⟩
  · split
    · exact ⟨fun _ => ⟨rfl, rfl⟩, fun h => absurd rfl h⟩
    · rename_i images heq
      split
      · exact ⟨fun _ => ⟨rfl, rfl⟩, fun h => absurd rfl h⟩
      · split
        · rename_i hsave
          split
          · rename_i hmove
            refine ⟨fun h => by simp [raised] at h, fun _ => ⟨rfl, ?_, hmove⟩⟩
            rw [← decodeAll_ok env paths.length paths 0 images heq]
            exact hsave
          · exact ⟨fun _ => ⟨rfl, rfl⟩, fun h => absurd rfl h⟩
        · exact ⟨fun _ => ⟨rfl, rfl⟩, fun h => absurd rfl h⟩

/-- C6 witness: a failing run (every decode fails) ends with no temporary file
and the destination's pre-call contents intact. -/
theorem C6_cleanup_witness :
    (images_to_pdf envE7 ["a.png"] (some [Img.file "z"])).2.1.tempExists = false
    ∧ (images_to_pdf envE7 ["a.png"] (some [Img.file "z"])).2.1.dest = some [Img.file "z"] :=
  (C6_cleanup envE7 ["a.png"] (some [Img.file "z"])).1 (by decide)

/-- C7, counterexample.  The empty-input failure and the decode failure both
reach the caller as the *same* bare `Exception` class (lines 401-410 re-wrap
every internal error), not as a `ValidationError` / `IOError` pair: the decode
failure is not an `OSError` (Python's `IOError`), and the two kinds cannot be
distinguished by exception class. -/
theorem C7_cex :
    (images_to_pdf envE7 ["a.png"] none).1
        = .error (.exception "Failed to create PDF: Failed to process image a.png: boom")
    ∧ (match (images_to_pdf envE7 ["a.png"] none).1 with
        | .error e => e.isOsError
        | .ok _ => true) = false
    ∧ (images_to_pdf envE7 [] none).1
        = .error (.exception "Failed to create PDF: No images provided") := by
  refine ⟨by decide, by decide, by decide⟩

/-- C7 (amended): `images_to_pdf` raises on an empty input and on an individual
decode failure, and the decode-failure message identifies the offending path
(its basename) and the underlying open error; but both failures surface as the
same generic `Exception` class wrapping the internal `ValueError`'s message, so
the caller can tell the two kinds apart only by message text, not by error
class. -/
theorem C7_errors (env : PdfEnv) (dest0 : Option (List Img)) (pre : List String) (p : String)
    (post : List String) :
    (images_to_pdf env [] dest0).1
        = .error (.exception ("Failed to create PDF: " ++ "No images provided"))
    ∧ ((∀ q ∈ pre, env.openOk q = true) → env.openOk p = false →
        (images_to_pdf env (pre ++ p :: post) dest0).1
          = .error (.exception ("Failed to create PDF: "
              ++ ("Failed to process image " ++ basename p ++ ": " ++ env.openMsg p)))) := by
  constructor
  · rfl
  · intro hall hp
    have hd := decodeAll_err env (pre ++ p :: post).length p post hp pre 0 hall
    unfold images_to_pdf
    rw [if_neg (by simp)]
    rw [hd]
    rfl

/-- C7 witness: the amended statement at a concrete failing path. -/
theorem C7_errors_witness :
    (images_to_pdf envE7 [] none).1
        = .error (.exception ("Failed to create PDF: " ++ "No images provided"))
    ∧ (images_to_pdf envE7 (([] : List String) ++ "a.png" :: []) none).1
        = .error (.exception ("Failed to create PDF: "
            ++ ("Failed to process image " ++ basename "a.png" ++ ": " ++ envE7.openMsg "a.png"))) :=
  ⟨(C7_errors envE7 none [] "a.png" []).1,
    (C7_errors envE7 none [] "a.png" []).2 (by simp) (by decide)⟩

/-- C8 (confirmed): a successful run installs at the destination exactly one
page per input path, in input order: the document's pages are the input paths
decoded in sequence (first as base page, the rest appended in the same order by
construction of the page list). -/
theorem C8_order (env : PdfEnv) (paths : List String) (dest0 : Option (List Img)) :
    (images_to_pdf env paths dest0).1 = .ok true →
      (images_to_pdf env paths dest0).2.1.dest = some (paths.map (decodeOne env))
      ∧ (paths.map (decodeOne env)).length = paths.length := by
  intro h
  refine ⟨?_, by simp⟩
  revert h
  unfold images_to_pdf
  split
  · intro h; simp at h
  · split
    · intro h; simp at h
    · rename_i images heq
      split
      · intro h; simp at h
      · split
        · split
          · intro _
            have h2 := decodeAll_ok env paths.length paths 0 images heq
            simp [h2]
          · intro h; simp at h
        · intro h; simp at h

/-- C8 witness: three all-RGB inputs produce a three-page document in input
order. -/
theorem C8_order_witness :
    (images_to_pdf envOK ["A", "B", "C"] none).2.1.dest
        = some ((["A", "B", "C"] : List String).map (decodeOne envOK))
    ∧ ((["A", "B", "C"] : List String).map (decodeOne envOK)).length
        = (["A", "B", "C"] : List String).length :=
  C8_order envOK ["A", "B", "C"] none (by decide)

/-- C9 (confirmed): within one call, the values passed to the progress callback
are non-decreasing — the decode-phase values are scaled into `[0, 50]` (each is
at most 50) and are followed by 90 after the encode and 100 after the move —
and on a successful return the last reported value is exactly 100. -/
theorem C9_progress (env : PdfEnv) (paths : List String) (dest0 : Option (List Img)) :
    List.Chain' (· ≤ ·) (images_to_pdf env paths dest0).2.2
    ∧ ((images_to_pdf env paths dest0).1 = .ok true →
        (images_to_pdf env paths dest0).2.2.getLast? = some 100)
    ∧ ∀ x ∈ (decodeAll env paths.length paths 0).2, x ≤ 50 := by
  have hmem50 : ∀ x ∈ (decodeAll env paths.length paths 0).2, x ≤ 50 := by
    intro x hx
    cases paths with
    | nil => simp [decodeAll] at hx
    | cons a l =>
      have hlen : 0 < (a :: l).length := by simp
      have h2 := (decodeAll_prog_mem env (a :: l).length (a :: l) 0 x hx).2
      rw [Nat.zero_add, Nat.mul_div_cancel _ hlen] at h2
      exact h2
  refine ⟨?_, ?_, hmem50⟩
  · unfold images_to_pdf
    split
    · simp
    · split
      · exact decodeAll_prog_chain env paths.length paths 0
      · split
        · exact decodeAll_prog_chain env paths.length paths 0
        · split
          · split
            · refine List.Chain'.append (decodeAll_prog_chain env paths.length paths 0)
                (by simp [List.chain'_cons]) ?_
              intro x hx y hy
              have h50 := hmem50 x (List.mem_of_mem_getLast? hx)
              simp at hy
              omega
            · refine List.Chain'.append (decodeAll_prog_chain env paths.length paths 0)
                (by simp [List.chain'_cons]) ?_
              intro x hx y hy
              have h50 := hmem50 x (List.mem_of_mem_getLast? hx)
              simp at hy
              omega
          · exact decodeAll_prog_chain env paths.length paths 0
  · unfold images_to_pdf
    split
    · intro h; simp at h
    · split
      · intro h; simp at h
      · split
        · intro h; simp at h
        · split
          · split
            · intro _
              rw [show (decodeAll env paths.length paths 0).2 ++ [90, 100]
                    = ((decodeAll env paths.length paths 0).2 ++ [90]) ++ [100] by simp]
              exact List.getLast?_concat _
            · intro h; simp at h
          · intro h; simp at h

/-- C9 witness: a successful three-input run has a non-decreasing progress
sequence ending at 100. -/
theorem C9_progress_witness :
    List.Chain' (· ≤ ·) (images_to_pdf envOK ["A", "B", "C"] none).2.2
    ∧ (images_to_pdf envOK ["A", "B", "C"] none).2.2.getLast? = some 100 :=
  ⟨(C9_progress envOK ["A", "B", "C"] none).1,
    (C9_progress envOK ["A", "B", "C"] none).2.1 (by decide)⟩

end GnTools
